import Mathlib

/-!
Verification development for the CTESTWIN setup automator
(`ctestwin_setup_automator.py`).

The persisted-state codec core of the program is shallowly embedded here:

* Byte sequences are `List Nat`, each entry standing for one byte
  (values produced by the embedded writers are always `< 256`).
* Python `str` values that are only ever observed through their CP932
  encoding (operator names, the user-defined multi path) are modelled as
  their encoded byte sequences, i.e. `List Nat`.  A Python `None` is
  `Option.none`.
* `struct.pack("<H", n)` is modelled by `packU16`, which fails exactly
  when `n` is out of the unsigned 16-bit range (Python raises
  `struct.error` there); `struct.pack("<"+"H"*k, *xs)` is `packU16s k xs`,
  which additionally fails when `xs` does not have exactly `k` entries.
* Fallible code returns `Except String`; the message strings are
  placeholders for the Python exception texts.
* The configuration store manipulated through `configparser` is an
  ordered association list of sections, each an ordered association list
  of key/value pairs; `optionxform = str` in the source means keys are
  compared exactly, which the `String` equality here reproduces.
* File reads/writes at the edges of `write_ini`, `create_blank_lg8` and
  `inspect_lg8` are dropped: the functions are modelled as the pure
  transformations between the in-memory values that the source computes.
-/

namespace Ctestwin

/-- `MODE_TABLE` from the source: mode code → label, 25 entries. -/
def MODE_TABLE : List (Nat × String) :=
  [(0, "CW"), (1, "RTTY"), (2, "SSB"), (3, "FM"), (4, "AM"), (5, "ATV"),
   (6, "SSTV"), (7, "PSK"), (8, "GMSK"), (9, "MFSK"), (10, "QPSK"),
   (11, "FSK"), (12, "D-STAR"), (13, "C4FM"), (14, "JT65"), (15, "JT9"),
   (16, "ISCAT"), (17, "FT8"), (18, "JT4"), (19, "QRA64"), (20, "MSK144"),
   (21, "WSPR"), (22, "JTMS"), (23, "FT4"), (24, "FST4")]

/-- `BAND_TABLE` from the source: band code → label, 23 entries. -/
def BAND_TABLE : List (Nat × String) :=
  [(0, "1.9MHz"), (1, "3.5MHz"), (2, "7MHz"), (3, "10MHz"), (4, "14MHz"),
   (5, "18MHz"), (6, "21MHz"), (7, "24MHz"), (8, "28MHz"), (9, "50MHz"),
   (10, "144MHz"), (11, "430MHz"), (12, "1200MHz"), (13, "2400MHz"),
   (14, "5600MHz"), (15, "10GHz"), (16, "24GHz"), (17, "47GHz"),
   (18, "75GHz"), (19, "77GHz"), (20, "135GHz"), (21, "248GHz"),
   (22, "136kHz")]

/-- `MODE_TABLE_INV = {v:k for k,v in MODE_TABLE.items()}`. -/
def MODE_TABLE_INV : List (String × Nat) := MODE_TABLE.map (fun p => (p.2, p.1))

/-- `BAND_TABLE_INV = {v:k for k,v in BAND_TABLE.items()}`. -/
def BAND_TABLE_INV : List (String × Nat) := BAND_TABLE.map (fun p => (p.2, p.1))

/-- `MODE_TABLE.get(code, f"#\x7bcode\x7d")` as used in `App.inspect_lg8`. -/
def mode_label (c : Nat) : String :=
  match MODE_TABLE.find? (fun p => p.1 == c) with
  | some p => p.2
  | none => "#" ++ toString c

/-- `BAND_TABLE.get(code, f"#\x7bcode\x7d")` as used in `App.inspect_lg8`. -/
def band_label (c : Nat) : String :=
  match BAND_TABLE.find? (fun p => p.1 == c) with
  | some p => p.2
  | none => "#" ++ toString c

/-- `MODE_TABLE_INV[label]` (Python raises `KeyError` on a miss, hence `Option`). -/
def mode_code (l : String) : Option Nat :=
  (MODE_TABLE_INV.find? (fun p => p.1 == l)).map Prod.snd

/-- `BAND_TABLE_INV[label]` (Python raises `KeyError` on a miss, hence `Option`). -/
def band_code (l : String) : Option Nat :=
  (BAND_TABLE_INV.find? (fun p => p.1 == l)).map Prod.snd

/-- `FREQNUM = 23`. -/
def FREQNUM : Nat := 23

/-- `QSO_SIZE = 170`. -/
def QSO_SIZE : Nat := 170

/-- `HEADER_EXTRA = 14`. -/
def HEADER_EXTRA : Nat := 14

/-- The two bytes of `struct.pack("<H", n)` for an in-range `n`. -/
def u16le (n : Nat) : List Nat := [n % 256, n / 256]

/-- `struct.pack("<H", n)`: fails (struct.error) when `n` is not an
unsigned 16-bit value, otherwise yields the two little-endian bytes. -/
def packU16 (n : Nat) : Except String (List Nat) :=
  if n < 65536 then .ok (u16le n) else .error "struct.error: argument out of range"

/-- Effectful list map for `Except`, in source order (the first failure
propagates, as a raised Python exception would). -/
def mapE (f : α → Except String β) : List α → Except String (List β)
  | [] => .ok []
  | a :: l =>
      match f a with
      | .error e => .error e
      | .ok b =>
          match mapE f l with
          | .error e => .error e
          | .ok bs => .ok (b :: bs)

/-- `struct.pack("<" + "H"*cnt, *xs)`: fails unless `xs` has exactly `cnt`
entries, each an unsigned 16-bit value; yields the concatenated bytes. -/
def packU16s (cnt : Nat) (xs : List Nat) : Except String (List Nat) :=
  if xs.length = cnt then (mapE packU16 xs).map List.flatten
  else .error "struct.error: wrong argument count"

/-- `enc_cp932_nul(s, size)` from the source, on the CP932-encoded bytes of
`s`: append one zero byte, fail when the terminated length exceeds `size`,
else pad with zero bytes to exactly `size` bytes. -/
def enc_cp932_nul (s : List Nat) (size : Nat) : Except String (List Nat) :=
  if size < (s ++ [0]).length then .error "string too long"
  else .ok ((s ++ [0]) ++ List.replicate (size - (s ++ [0]).length) 0)

/-- The `Trailer` dataclass.  Name strings are carried as their CP932
byte sequences. -/
structure Trailer where
  ModeCurrent : Nat
  Is001Style : Nat
  DupePolicy : Nat
  FreqCurrent : Nat
  ContestKind : Nat
  TwiceMinusOne : Nat
  PointPhone : List Nat
  PointCW : List Nat
  ClubOpName : List (List Nat)
  UserDefinedMultiPath : Option (List Nat)
deriving Repr, DecidableEq

/-- The dataclass defaults: all scalars 0, both point tables `[1]*23`,
30 empty roster names, no path. -/
def Trailer.default : Trailer :=
  ⟨0, 0, 0, 0, 0, 0, List.replicate FREQNUM 1, List.replicate FREQNUM 1,
   List.replicate 30 [], none⟩

/-- Bytes contributed by `UserDefinedMultiPath` in `Trailer.pack`: the
source guards with Python truthiness (`if self.UserDefinedMultiPath:`),
so both `None` and the empty string contribute nothing; a non-empty path
is emitted with a single terminating zero byte. -/
def pathBytes : Option (List Nat) → List Nat
  | some p => if p = [] then [] else p ++ [0]
  | none => []

/-- `Trailer.pack` from the source: six scalars as `<6H`, the phone and CW
point tables as `<23H` each, then `(self.ClubOpName + [""]*30)[:30]`
through `enc_cp932_nul(name, 20)`, then the optional path bytes.  The
first failing pack raises, abandoning the bytes built so far. -/
def Trailer.pack (t : Trailer) : Except String (List Nat) :=
  match packU16s 6 [t.ModeCurrent, t.Is001Style, t.DupePolicy,
                    t.FreqCurrent, t.ContestKind, t.TwiceMinusOne] with
  | .error e => .error e
  | .ok scal =>
      match packU16s FREQNUM t.PointPhone with
      | .error e => .error e
      | .ok ph =>
          match packU16s FREQNUM t.PointCW with
          | .error e => .error e
          | .ok cw =>
              match mapE (fun n => enc_cp932_nul n 20)
                  ((t.ClubOpName ++ List.replicate 30 []).take 30) with
              | .error e => .error e
              | .ok ros =>
                  .ok (scal ++ ph ++ cw ++ ros.flatten ++
                    pathBytes t.UserDefinedMultiPath)

/-- The `Trailer` built by `create_blank_lg8` before packing.  The Python
parameter defaults are `contest_kind=1`, `is001=0`, `dupe_policy=0`,
`twice_minus_one=0`, `club_ops=None`, `md_path=None`; `if club_ops:` is
Python truthiness, so `None` and the empty list both keep the dataclass
default roster. -/
def create_blank_trailer (mode_code band_code contest_kind is001
    dupe_policy twice_minus_one : Nat) (club_ops : Option (List (List Nat)))
    (md_path : Option (List Nat)) : Trailer :=
  { Trailer.default with
    ModeCurrent := mode_code
    FreqCurrent := band_code
    ContestKind := contest_kind
    Is001Style := is001
    DupePolicy := dupe_policy
    TwiceMinusOne := twice_minus_one
    ClubOpName :=
      match club_ops with
      | some ops =>
          if ops = [] then Trailer.default.ClubOpName
          else (ops ++ List.replicate 30 []).take 30
      | none => Trailer.default.ClubOpName
    UserDefinedMultiPath := md_path }

/-- `create_blank_lg8` from the source, as the byte sequence it writes to
`out_path`: `struct.pack("<H", 0)`, then `b"\x00" * HEADER_EXTRA` only when
`header_legacy_2bytes` is false (the Python default is
`header_legacy_2bytes=True`), then the packed trailer. -/
def create_blank_lg8 (mode_code band_code contest_kind is001 dupe_policy
    twice_minus_one : Nat) (club_ops : Option (List (List Nat)))
    (md_path : Option (List Nat)) (header_legacy_2bytes : Bool) :
    Except String (List Nat) :=
  (create_blank_trailer mode_code band_code contest_kind is001 dupe_policy
      twice_minus_one club_ops md_path).pack.map
    (fun tr =>
      u16le 0 ++
      (if header_legacy_2bytes then [] else List.replicate HEADER_EXTRA 0) ++
      tr)

/-- Little-endian unsigned 16-bit read at index `i` (out-of-range bytes
read as 0; every use is bounds-guarded as in the source). -/
def u16at (b : List Nat) (i : Nat) : Nat := b.getD i 0 + 256 * b.getD (i + 1) 0

/-- The trailer-offset heuristic of `App.inspect_lg8`, on the buffer
length and the decoded record count: start from `off = 16 + qso*170` and
fall back to `2 + qso*170` exactly when
`len >= 2 + qso*170 + 12 and len < off + 12`. -/
def inspectSelect (len qso : Nat) : Nat :=
  if 2 + qso * QSO_SIZE + 12 ≤ len ∧ len < 16 + qso * QSO_SIZE + 12 then
    2 + qso * QSO_SIZE
  else 16 + qso * QSO_SIZE

/-- The offset `App.inspect_lg8` decodes the trailer at, `none` when the
buffer is too short to even read the record count
(`struct.unpack("<H", b[:2])` fails). -/
def inspect_off (b : List Nat) : Option Nat :=
  if b.length < 2 then none
  else some (inspectSelect b.length (u16at b 0))

/-- `App.inspect_lg8` on the file bytes: record count, then
`struct.unpack("<6H", b[off:off+12])` at the selected offset, reported as
`(qso, mode, freq, kind, off)` — the fields the dialog displays.  The
unpack fails when fewer than 12 bytes are available at `off`. -/
def inspect_lg8 (b : List Nat) : Except String (Nat × Nat × Nat × Nat × Nat) :=
  if b.length < 2 then .error "struct.error: unpack requires 2 bytes"
  else
    let qso := u16at b 0
    let off := inspectSelect b.length qso
    if off + 12 ≤ b.length then
      .ok (qso, u16at b off, u16at b (off + 6), u16at b (off + 8), off)
    else .error "struct.error: unpack requires 12 bytes"

/-! ### Configuration store (`configparser.RawConfigParser` with
`optionxform = str`) and the INI writers -/

/-- The in-memory store: ordered sections, each an ordered list of
key/value pairs.  `RawConfigParser` keeps one entry per key per section;
`set` on an existing key replaces its value in place, on a new key
appends it; `add_section` appends an empty section. -/
abbrev ConfigStore := List (String × List (String × String))

/-- `cfg.has_section(s)`. -/
def hasSection : ConfigStore → String → Bool
  | [], _ => false
  | sec :: rest, s => sec.1 == s || hasSection rest s

/-- `cfg.add_section(s)`. -/
def addSection (st : ConfigStore) (s : String) : ConfigStore :=
  st ++ [(s, [])]

/-- Update-or-append of one key inside a section's entry list (the
behaviour of assigning to a Python dict key: an existing key keeps its
position, a new key is appended). -/
def setKey : List (String × String) → String → String → List (String × String)
  | [], k, v => [(k, v)]
  | e :: rest, k, v =>
      if e.1 = k then (k, v) :: rest else e :: setKey rest k v

/-- `cfg.set(s, k, v)` on a store whose section `s` exists (every call
site in the source guards with `has_section`/`add_section` first; on a
missing section this model leaves the store unchanged where
`configparser` would raise `NoSectionError`). -/
def setKV : ConfigStore → String → String → String → ConfigStore
  | [], _, _, _ => []
  | sec :: rest, s, k, v =>
      (if sec.1 = s then (sec.1, setKey sec.2 k v) else sec) :: setKV rest s k v

/-- The `if not cfg.has_section(s): cfg.add_section(s)` idiom. -/
def ensureSection (st : ConfigStore) (s : String) : ConfigStore :=
  if hasSection st s then st else addSection st s

/-- The entry list of the first section named `s`. -/
def lookupSection : ConfigStore → String → Option (List (String × String))
  | [], _ => none
  | sec :: rest, s => if sec.1 = s then some sec.2 else lookupSection rest s

/-- The value of the first entry named `k`. -/
def lookupKey : List (String × String) → String → Option String
  | [], _ => none
  | e :: rest, k => if e.1 = k then some e.2 else lookupKey rest k

/-- Read back one value from the store. -/
def lookupKV (st : ConfigStore) (s k : String) : Option String :=
  (lookupSection st s).bind (fun l => lookupKey l k)

/-- A sequence of `cfg.set` calls, in order. -/
def applyWrites (st : ConfigStore) (ws : List (String × String × String)) :
    ConfigStore :=
  ws.foldl (fun st w => setKV st w.1 w.2.1 w.2.2) st

/-- The value of the last write in `ws` targeting `(s, k)`, if any. -/
def lastWrite (s k : String) (ws : List (String × String × String)) :
    Option String :=
  ws.foldl
    (fun acc w => (if w.1 = s ∧ w.2.1 = k then some w.2.2 else none).or acc)
    none

/-- Python truthiness of an optional string (`None` and `""` are falsy). -/
def truthyS : Option String → Bool
  | some s => !(s == "")
  | none => false

/-- Python truthiness of an optional integer (`None` and `0` are falsy). -/
def truthyN : Option Nat → Bool
  | some n => !(n == 0)
  | none => false

/-- The `[UrCnum]` writes of `write_ini`: each map entry whose value is
not `None` is set (an empty string is not skipped — only `None` is). -/
def urcWrites (m : List (String × Option String)) :
    List (String × String × String) :=
  m.filterMap (fun p => p.2.map (fun v => ("UrCnum", p.1, v)))

/-- The key written for roster slot `i` (0-based): `f"OP\x7bi+1\x7d"`. -/
def opKey (i : Nat) : String := "OP" ++ toString (i + 1)

/-- The `[CLUB]` writes of `write_ini` / `App.apply_ops_to_ini`: all 30
keys `OP1..OP30`, the value being the i-th supplied name or `""`. -/
def clubWrites (club : List String) : List (String × String × String) :=
  (List.range 30).map (fun i => ("CLUB", opKey i, club.getD i ""))

/-- The `[UrCnum]` block of `write_ini`. -/
def iniBlockUrc (st : ConfigStore) (m : List (String × Option String)) :
    ConfigStore :=
  applyWrites (ensureSection st "UrCnum") (urcWrites m)

/-- The `[CLUB]` block of `write_ini`. -/
def iniBlockClub (st : ConfigStore) (club : List String) : ConfigStore :=
  applyWrites (ensureSection st "CLUB") (clubWrites club)

/-- The `[Partial]` block of `write_ini`. -/
def iniBlockPartial (st : ConfigStore) (ppath : Option String) : ConfigStore :=
  if truthyS ppath then
    setKV (ensureSection st "Partial") "Partial" "Filename" (ppath.getD "")
  else st

/-- The `[CW]` block of `write_ini` (`if cw_cq or cw_wpm:` then each field
under its own truthiness guard; `WPM_DEF` is written as `str(cw_wpm)`). -/
def iniBlockCW (st : ConfigStore) (cq : Option String) (wpm : Option Nat) :
    ConfigStore :=
  if truthyS cq || truthyN wpm then
    let st1 := ensureSection st "CW"
    let st2 := if truthyS cq then setKV st1 "CW" "CQ" (cq.getD "") else st1
    if truthyN wpm then setKV st2 "CW" "WPM_DEF" (toString (wpm.getD 0)) else st2
  else st

/-- The startup band/mode block of `write_ini`: mirrors the labels into
`[CurrentData]` and `[Startup]`. -/
def iniBlockStartup (st : ConfigStore) (sBand sMode : Option String) :
    ConfigStore :=
  if truthyS sBand || truthyS sMode then
    let a := ensureSection st "CurrentData"
    let b := if truthyS sBand then setKV a "CurrentData" "BandLabel" (sBand.getD "") else a
    let c := if truthyS sMode then setKV b "CurrentData" "ModeLabel" (sMode.getD "") else b
    let d := ensureSection c "Startup"
    let e := if truthyS sBand then setKV d "Startup" "Band" (sBand.getD "") else d
    if truthyS sMode then setKV e "Startup" "Mode" (sMode.getD "") else e
  else st

/-- The `[CurrentData] CloseFname` block of `write_ini`. -/
def iniBlockOpenLog (st : ConfigStore) (olog : Option String) : ConfigStore :=
  if truthyS olog then
    setKV (ensureSection st "CurrentData") "CurrentData" "CloseFname" (olog.getD "")
  else st

/-- The `[Contest] UserContestMD` block of `write_ini`. -/
def iniBlockContest (st : ConfigStore) (umd : Option String) : ConfigStore :=
  if truthyS umd then
    setKV (ensureSection st "Contest") "Contest" "UserContestMD" (umd.getD "")
  else st

/-- `write_ini` from the source, as the transformation of the loaded
store (`st`) into the store it serialises back to disk.  Arguments in
source order: `urcnum_map`, `club_ops`, `partial_path`, `cw_cq`,
`cw_wpm`, `open_log_fullpath`, `user_md_path`, `startup_band_label`,
`startup_mode_label`. -/
def write_ini (st : ConfigStore) (m : List (String × Option String))
    (club : List String) (ppath cq : Option String) (wpm : Option Nat)
    (olog umd sBand sMode : Option String) : ConfigStore :=
  iniBlockContest
    (iniBlockOpenLog
      (iniBlockStartup
        (iniBlockCW
          (iniBlockPartial
            (iniBlockClub (iniBlockUrc st m) club)
            ppath)
          cq wpm)
        sBand sMode)
      olog)
    umd

/-- `App.apply_ops_to_ini` on the loaded store: ensure `[CLUB]` exists,
then set all of `OP1..OP30` (the same loop as the `[CLUB]` block of
`write_ini`). -/
def apply_ops_to_ini (st : ConfigStore) (club : List String) : ConfigStore :=
  applyWrites (ensureSection st "CLUB") (clubWrites club)

/-- Which 0-based roster slot a key addresses: the last `i` in
`range 30` with `k = opKey i` (the slot whose write is the one that
sticks). -/
def clubSlot (k : String) : Option Nat :=
  (List.range 30).foldl
    (fun acc i => (if opKey i = k then some i else none).or acc) none

/-- The value left in `[UrCnum]` key `k` by the map `m`: the last
non-`None` entry for `k`, if any. -/
def lastUrc (k : String) (m : List (String × Option String)) : Option String :=
  m.foldl
    (fun acc p =>
      (match p.2 with
       | some v => if p.1 = k then some v else none
       | none => none).or acc)
    none

/-! ### Store lemmas -/

theorem lookupKey_setKey (l : List (String × String)) (k v k' : String) :
    lookupKey (setKey l k v) k' = if k' = k then some v else lookupKey l k' := by
  induction l with
  | nil =>
      by_cases h : k' = k
      · subst h; simp [setKey, lookupKey]
      · have h2 : k ≠ k' := fun hx => h hx.symm
        simp [setKey, lookupKey, h, h2]
  | cons e rest ih =>
      by_cases hek : e.1 = k
      · by_cases hkk : k' = k
        · subst hkk; simp [setKey, lookupKey, hek]
        · have h2 : k ≠ k' := fun hx => hkk hx.symm
          have hek' : e.1 ≠ k' := by rw [hek]; exact h2
          simp [setKey, lookupKey, hek, hek', h2, hkk]
      · by_cases he' : e.1 = k'
        · have hkk : k' ≠ k := by rw [← he']; exact fun hx => hek hx
          simp [setKey, lookupKey, hek, he', hkk]
        · simp [setKey, lookupKey, hek, he', ih]

theorem lookupKV_setKV (st : ConfigStore) (s k v s' k' : String) :
    lookupKV (setKV st s k v) s' k'
      = if s' = s ∧ k' = k ∧ hasSection st s = true then some v
        else lookupKV st s' k' := by
  induction st with
  | nil => simp [setKV, lookupKV, lookupSection, hasSection]
  | cons sec rest ih =>
      by_cases hss : sec.1 = s <;> by_cases hs' : sec.1 = s'
      · have heq : s' = s := by rw [← hs', hss]
        subst heq
        have hsec : hasSection (sec :: rest) s' = true := by
          simp [hasSection, hss]
        simp [setKV, lookupKV, lookupSection, hss, hs', lookupKey_setKey, hsec]
      · have hne : s' ≠ s := fun hx => hs' (hss.trans hx.symm)
        have hC : ¬(s' = s ∧ k' = k ∧ hasSection (sec :: rest) s = true) :=
          fun hx => hne hx.1
        rw [if_neg hC]
        have hC' : ¬(s' = s ∧ k' = k ∧ hasSection rest s = true) :=
          fun hx => hne hx.1
        have hhd : (if sec.1 = s then (sec.1, setKey sec.2 k v) else sec).1 ≠ s' := by
          rw [if_pos hss]; exact hs'
        simp only [setKV, lookupKV, lookupSection, if_neg hhd, if_neg hs']
        have ih' := ih
        simp only [lookupKV] at ih'
        rw [ih', if_neg hC']
      · have hne : s' ≠ s := fun hx => hss (hs'.trans hx)
        have hC : ¬(s' = s ∧ k' = k ∧ hasSection (sec :: rest) s = true) :=
          fun hx => hne hx.1
        rw [if_neg hC]
        have hhd : (if sec.1 = s then (sec.1, setKey sec.2 k v) else sec).1 = s' := by
          rw [if_neg hss]; exact hs'
        have hhd2 : (if sec.1 = s then (sec.1, setKey sec.2 k v) else sec).2 = sec.2 := by
          rw [if_neg hss]
        simp only [setKV, lookupKV, lookupSection, if_pos hhd, if_pos hs', hhd2]
      · have hsec : hasSection (sec :: rest) s = hasSection rest s := by
          simp [hasSection, hss]
        have hhd : (if sec.1 = s then (sec.1, setKey sec.2 k v) else sec).1 ≠ s' := by
          rw [if_neg hss]; exact hs'
        simp only [setKV, lookupKV, lookupSection, if_neg hhd, if_neg hs', hsec]
        have ih' := ih
        simp only [lookupKV] at ih'
        exact ih'

theorem lookupKV_addSection (st : ConfigStore) (s s' k' : String) :
    lookupKV (addSection st s) s' k' = lookupKV st s' k' := by
  induction st with
  | nil =>
      by_cases hs : s = s' <;>
        simp [lookupKV, addSection, lookupSection, lookupKey, hs]
  | cons sec rest ih =>
      by_cases hs' : sec.1 = s' <;>
        simp_all [lookupKV, addSection, lookupSection, hs']

theorem hasSection_setKV (st : ConfigStore) (s k v s' : String) :
    hasSection (setKV st s k v) s' = hasSection st s' := by
  induction st with
  | nil => rfl
  | cons sec rest ih =>
      by_cases hss : sec.1 = s <;>
        simp [setKV, hasSection, hss, ih]

theorem lookupKV_ensure (st : ConfigStore) (s s' k' : String) :
    lookupKV (ensureSection st s) s' k' = lookupKV st s' k' := by
  unfold ensureSection
  split
  · rfl
  · exact lookupKV_addSection st s s' k'

theorem hasSection_addSection (st : ConfigStore) (s s' : String) :
    hasSection (addSection st s) s' = (hasSection st s' || (s == s')) := by
  induction st with
  | nil => simp [hasSection, addSection]
  | cons sec rest ih =>
      simp [hasSection, addSection, Bool.or_assoc] at ih ⊢
      rw [ih]

theorem hasSection_ensure_self (st : ConfigStore) (s : String) :
    hasSection (ensureSection st s) s = true := by
  unfold ensureSection
  split
  · assumption
  · simp [hasSection_addSection]

theorem lookupKV_some_hasSection (st : ConfigStore) (s k v : String)
    (h : lookupKV st s k = some v) : hasSection st s = true := by
  induction st with
  | nil => simp [lookupKV, lookupSection] at h
  | cons sec rest ih =>
      by_cases hs : sec.1 = s
      · simp [hasSection, hs]
      · simp only [lookupKV, lookupSection, if_neg hs] at h
        simp [hasSection, hs, ih h]

theorem foldl_or_init {α β : Type} (f : β → Option α) (l : List β) :
    ∀ acc : Option α,
      l.foldl (fun a i => (f i).or a) acc
        = (l.foldl (fun a i => (f i).or a) none).or acc := by
  induction l with
  | nil => intro acc; simp
  | cons i l ih =>
      intro acc
      simp only [List.foldl_cons]
      rw [ih ((f i).or acc), ih ((f i).or none)]
      simp [Option.or_assoc]

theorem applyWrites_lookup (ws : List (String × String × String)) :
    ∀ (st : ConfigStore) (s k : String),
      (∀ w ∈ ws, hasSection st w.1 = true) →
      lookupKV (applyWrites st ws) s k
        = (lastWrite s k ws).or (lookupKV st s k) := by
  induction ws with
  | nil => intro st s k _; simp [applyWrites, lastWrite]
  | cons w ws ih =>
      intro st s k h
      have hw : hasSection st w.1 = true := h w (List.mem_cons_self w ws)
      have hws : ∀ w' ∈ ws, hasSection (setKV st w.1 w.2.1 w.2.2) w'.1 = true := by
        intro w' hw'
        rw [hasSection_setKV]
        exact h w' (List.mem_cons_of_mem w hw')
      have step : lookupKV (applyWrites (setKV st w.1 w.2.1 w.2.2) ws) s k
          = (lastWrite s k ws).or (lookupKV (setKV st w.1 w.2.1 w.2.2) s k) :=
        ih (setKV st w.1 w.2.1 w.2.2) s k hws
      have hlast : lastWrite s k (w :: ws)
          = (lastWrite s k ws).or
              (if w.1 = s ∧ w.2.1 = k then some w.2.2 else none) := by
        unfold lastWrite
        simp only [List.foldl_cons]
        rw [foldl_or_init
          (fun w' : String × String × String =>
            if w'.1 = s ∧ w'.2.1 = k then some w'.2.2 else none)
          ws ((if w.1 = s ∧ w.2.1 = k then some w.2.2 else none).or none)]
        rw [Option.or_none]
      calc lookupKV (applyWrites st (w :: ws)) s k
            = lookupKV (applyWrites (setKV st w.1 w.2.1 w.2.2) ws) s k := rfl
        _ = (lastWrite s k ws).or (lookupKV (setKV st w.1 w.2.1 w.2.2) s k) := step
        _ = (lastWrite s k (w :: ws)).or (lookupKV st s k) := by
              rw [hlast, Option.or_assoc, lookupKV_setKV]
              by_cases hc : s = w.1 ∧ k = w.2.1
              · simp [hc.1, hc.2, hw]
              · have hc' : ¬(w.1 = s ∧ w.2.1 = k) := by
                  intro hx; exact hc ⟨hx.1.symm, hx.2.symm⟩
                have hc'' : ¬(s = w.1 ∧ k = w.2.1 ∧ hasSection st w.1 = true) := by
                  intro hx; exact hc ⟨hx.1, hx.2.1⟩
                simp [hc', hc'']

theorem lastWrite_club_aux (s k : String) (club : List String)
    (is : List Nat) :
    ∀ acc : Option String,
      (is.map (fun i => (("CLUB" : String), opKey i, club.getD i ""))).foldl
          (fun a w => (if w.1 = s ∧ w.2.1 = k then some w.2.2 else none).or a)
          acc
        = (if s = "CLUB"
            then (is.foldl
                (fun a i => (if opKey i = k then some i else none).or a)
                none).map (fun i => club.getD i "")
            else none).or acc := by
  induction is with
  | nil =>
      intro acc
      by_cases hs : s = "CLUB" <;> simp [hs]
  | cons i is ih =>
      intro acc
      simp only [List.map_cons, List.foldl_cons]
      rw [ih]
      rw [foldl_or_init (fun i => if opKey i = k then some i else none) is
        ((if opKey i = k then some i else none).or none)]
      by_cases hs : s = "CLUB"
      · subst hs
        by_cases hk : opKey i = k <;>
          cases hfold : is.foldl
              (fun a i => (if opKey i = k then some i else none).or a) none <;>
            simp [hk, hfold, Option.or_assoc]
      · have hs2 : ¬(("CLUB" : String) = s) := fun hx => hs hx.symm
        simp [hs, hs2]

theorem lastWrite_clubWrites (s k : String) (club : List String) :
    lastWrite s k (clubWrites club)
      = if s = "CLUB" then (clubSlot k).map (fun i => club.getD i "") else none := by
  unfold lastWrite clubWrites clubSlot
  rw [lastWrite_club_aux s k club (List.range 30) none]
  rw [Option.or_none]

theorem lastWrite_urc_aux (s k : String) (m : List (String × Option String)) :
    ∀ acc : Option String,
      (urcWrites m).foldl
          (fun a w => (if w.1 = s ∧ w.2.1 = k then some w.2.2 else none).or a)
          acc
        = (if s = "UrCnum" then lastUrc k m else none).or acc := by
  induction m with
  | nil =>
      intro acc
      by_cases hs : s = "UrCnum" <;> simp [hs, urcWrites, lastUrc]
  | cons p m ih =>
      intro acc
      cases hp : p.2 with
      | none =>
          have hu : urcWrites (p :: m) = urcWrites m := by
            simp [urcWrites, List.filterMap_cons, hp]
          have hl : lastUrc k (p :: m) = lastUrc k m := by
            unfold lastUrc
            simp [List.foldl_cons, hp]
          rw [hu, hl] at *
          exact ih acc
      | some v =>
          have hu : urcWrites (p :: m)
              = (("UrCnum", p.1, v) : String × String × String) :: urcWrites m := by
            simp [urcWrites, List.filterMap_cons, hp]
          have hl : lastUrc k (p :: m)
              = (lastUrc k m).or (if p.1 = k then some v else none) := by
            unfold lastUrc
            simp only [List.foldl_cons, hp]
            rw [foldl_or_init
              (fun p' : String × Option String =>
                match p'.2 with
                | some v' => if p'.1 = k then some v' else none
                | none => none)
              m ((if p.1 = k then some v else none).or none)]
            rw [Option.or_none]
          rw [hu]
          simp only [List.foldl_cons]
          rw [ih]
          rw [hl]
          by_cases hs : s = "UrCnum"
          · subst hs
            by_cases hk : p.1 = k <;> cases hfold : lastUrc k m <;>
              simp [hk, hfold, Option.or_assoc]
          · have hs2 : ¬(("UrCnum" : String) = s) := fun hx => hs hx.symm
            simp [hs, hs2]

theorem lastWrite_urcWrites (s k : String)
    (m : List (String × Option String)) :
    lastWrite s k (urcWrites m)
      = if s = "UrCnum" then lastUrc k m else none := by
  unfold lastWrite
  rw [lastWrite_urc_aux s k m none]
  rw [Option.or_none]

theorem iniBlockUrc_lookup (st : ConfigStore)
    (m : List (String × Option String)) (s k : String) :
    lookupKV (iniBlockUrc st m) s k
      = (if s = "UrCnum" then lastUrc k m else none).or (lookupKV st s k) := by
  have hpre : ∀ w ∈ urcWrites m,
      hasSection (ensureSection st "UrCnum") w.1 = true := by
    intro w hw
    obtain ⟨p, hp, hf⟩ := List.mem_filterMap.mp hw
    have hw1 : w.1 = "UrCnum" := by
      cases hpv : p.2 with
      | none => rw [hpv] at hf; simp at hf
      | some v =>
          rw [hpv] at hf
          simp only [Option.map_some'] at hf
          injection hf with hf
          rw [← hf]
    rw [hw1]
    exact hasSection_ensure_self st "UrCnum"
  unfold iniBlockUrc
  rw [applyWrites_lookup (urcWrites m) (ensureSection st "UrCnum") s k hpre,
    lastWrite_urcWrites, lookupKV_ensure]

theorem iniBlockClub_lookup (st : ConfigStore) (club : List String)
    (s k : String) :
    lookupKV (iniBlockClub st club) s k
      = (if s = "CLUB" then (clubSlot k).map (fun i => club.getD i "")
          else none).or (lookupKV st s k) := by
  have hpre : ∀ w ∈ clubWrites club,
      hasSection (ensureSection st "CLUB") w.1 = true := by
    intro w hw
    obtain ⟨i, hi, hf⟩ := List.mem_map.mp hw
    rw [← hf]
    exact hasSection_ensure_self st "CLUB"
  unfold iniBlockClub
  rw [applyWrites_lookup (clubWrites club) (ensureSection st "CLUB") s k hpre,
    lastWrite_clubWrites, lookupKV_ensure]

theorem apply_ops_to_ini_lookup (st : ConfigStore) (club : List String)
    (s k : String) :
    lookupKV (apply_ops_to_ini st club) s k
      = (if s = "CLUB" then (clubSlot k).map (fun i => club.getD i "")
          else none).or (lookupKV st s k) := by
  have h := iniBlockClub_lookup st club s k
  unfold iniBlockClub at h
  unfold apply_ops_to_ini
  exact h

theorem iniBlockPartial_lookup (st : ConfigStore) (ppath : Option String)
    (s k : String) :
    lookupKV (iniBlockPartial st ppath) s k
      = if s = "Partial" ∧ k = "Filename" ∧ truthyS ppath = true
          then some (ppath.getD "") else lookupKV st s k := by
  unfold iniBlockPartial
  by_cases hp : truthyS ppath = true
  · rw [if_pos hp, lookupKV_setKV, hasSection_ensure_self, lookupKV_ensure]
    simp [hp]
  · rw [if_neg hp]
    have hC : ¬(s = "Partial" ∧ k = "Filename" ∧ truthyS ppath = true) :=
      fun hx => hp hx.2.2
    rw [if_neg hC]

theorem iniBlockCW_lookup (st : ConfigStore) (cq : Option String)
    (wpm : Option Nat) (s k : String) :
    lookupKV (iniBlockCW st cq wpm) s k
      = if s = "CW" ∧ k = "WPM_DEF" ∧ truthyN wpm = true
          then some (toString (wpm.getD 0))
        else if s = "CW" ∧ k = "CQ" ∧ truthyS cq = true then some (cq.getD "")
        else lookupKV st s k := by
  unfold iniBlockCW
  by_cases hq : truthyS cq = true <;> by_cases hw : truthyN wpm = true <;>
    simp [hq, hw, lookupKV_setKV, hasSection_setKV, hasSection_ensure_self,
      lookupKV_ensure]

theorem iniBlockStartup_lookup (st : ConfigStore) (sBand sMode : Option String)
    (s k : String) :
    lookupKV (iniBlockStartup st sBand sMode) s k
      = if s = "Startup" ∧ k = "Mode" ∧ truthyS sMode = true
          then some (sMode.getD "")
        else if s = "Startup" ∧ k = "Band" ∧ truthyS sBand = true
          then some (sBand.getD "")
        else if s = "CurrentData" ∧ k = "ModeLabel" ∧ truthyS sMode = true
          then some (sMode.getD "")
        else if s = "CurrentData" ∧ k = "BandLabel" ∧ truthyS sBand = true
          then some (sBand.getD "")
        else lookupKV st s k := by
  unfold iniBlockStartup
  by_cases hb : truthyS sBand = true <;> by_cases hm : truthyS sMode = true <;>
    simp [hb, hm, lookupKV_setKV, hasSection_setKV, hasSection_ensure_self,
      lookupKV_ensure]

theorem iniBlockOpenLog_lookup (st : ConfigStore) (olog : Option String)
    (s k : String) :
    lookupKV (iniBlockOpenLog st olog) s k
      = if s = "CurrentData" ∧ k = "CloseFname" ∧ truthyS olog = true
          then some (olog.getD "") else lookupKV st s k := by
  unfold iniBlockOpenLog
  by_cases ho : truthyS olog = true
  · rw [if_pos ho, lookupKV_setKV, hasSection_ensure_self, lookupKV_ensure]
    simp [ho]
  · rw [if_neg ho]
    have hC : ¬(s = "CurrentData" ∧ k = "CloseFname" ∧ truthyS olog = true) :=
      fun hx => ho hx.2.2
    rw [if_neg hC]

theorem iniBlockContest_lookup (st : ConfigStore) (umd : Option String)
    (s k : String) :
    lookupKV (iniBlockContest st umd) s k
      = if s = "Contest" ∧ k = "UserContestMD" ∧ truthyS umd = true
          then some (umd.getD "") else lookupKV st s k := by
  unfold iniBlockContest
  by_cases hu : truthyS umd = true
  · rw [if_pos hu, lookupKV_setKV, hasSection_ensure_self, lookupKV_ensure]
    simp [hu]
  · rw [if_neg hu]
    have hC : ¬(s = "Contest" ∧ k = "UserContestMD" ∧ truthyS umd = true) :=
      fun hx => hu hx.2.2
    rw [if_neg hC]

/-! ### Codec lemmas -/

theorem packU16_ok (n : Nat) (b : List Nat) (h : packU16 n = .ok b) :
    b = u16le n ∧ n < 65536 := by
  unfold packU16 at h
  split at h
  · exact ⟨(Except.ok.injEq _ _).mp h.symm, by assumption⟩
  · exact absurd h (by simp)

theorem mapE_ok {α β : Type} {f : α → Except String β} :
    ∀ {l : List α} {out : List β}, mapE f l = .ok out →
      List.Forall₂ (fun a b => f a = .ok b) l out := by
  intro l
  induction l with
  | nil =>
      intro out h
      unfold mapE at h
      cases h
      exact List.Forall₂.nil
  | cons a l ih =>
      intro out h
      unfold mapE at h
      cases hf : f a with
      | error e => rw [hf] at h; exact absurd h (by simp)
      | ok b =>
          rw [hf] at h
          cases hm : mapE f l with
          | error e => rw [hm] at h; exact absurd h (by simp)
          | ok bs =>
              rw [hm] at h
              cases h
              exact List.Forall₂.cons hf (ih hm)

theorem forall₂_out_eq_map {α β : Type} {f : α → Except String β}
    {g : α → β} (hg : ∀ a b, f a = .ok b → b = g a) :
    ∀ {l : List α} {out : List β},
      List.Forall₂ (fun a b => f a = .ok b) l out → out = l.map g := by
  intro l
  induction l with
  | nil =>
      intro out h
      cases h
      rfl
  | cons a l ih =>
      intro out h
      cases h with
      | cons hab hrest =>
          simp only [List.map_cons]
          rw [hg a _ hab, ih hrest]

theorem flatten_const_length {α : Type} (c : Nat) :
    ∀ L : List (List α), (∀ x ∈ L, x.length = c) →
      L.flatten.length = c * L.length := by
  intro L
  induction L with
  | nil => intro _; simp
  | cons x L ih =>
      intro h
      have hx : x.length = c := h x (List.mem_cons_self x L)
      have hL := ih (fun y hy => h y (List.mem_cons_of_mem x hy))
      simp [List.flatten_cons, hx, hL, Nat.mul_succ, Nat.add_comm]

theorem packU16s_ok (cnt : Nat) (xs out : List Nat)
    (h : packU16s cnt xs = .ok out) :
    xs.length = cnt ∧ out = (xs.map u16le).flatten ∧ out.length = 2 * cnt := by
  unfold packU16s at h
  split at h
  case isTrue hlen =>
    cases hm : mapE packU16 xs with
    | error e => rw [hm] at h; exact absurd h (by simp [Except.map])
    | ok bs =>
        rw [hm] at h
        have hout : out = bs.flatten := by
          simp only [Except.map] at h
          cases h
          rfl
        have hfa := mapE_ok hm
        have hbs : bs = xs.map u16le :=
          forall₂_out_eq_map (fun a b hab => (packU16_ok a b hab).1) hfa
        have hlen2 : out.length = 2 * cnt := by
          rw [hout, hbs, flatten_const_length 2]
          · rw [List.length_map, hlen]
          · intro x hx
            obtain ⟨n, _, hn⟩ := List.mem_map.mp hx
            rw [← hn]
            rfl
        exact ⟨hlen, by rw [hout, hbs], hlen2⟩
  case isFalse => exact absurd h (by simp)

theorem enc_cp932_nul_ok (nm b : List Nat)
    (h : enc_cp932_nul nm 20 = .ok b) :
    b = (nm ++ [0]) ++ List.replicate (20 - (nm ++ [0]).length) 0 ∧
    b.length = 20 ∧ nm.length + 1 ≤ 20 := by
  unfold enc_cp932_nul at h
  split at h
  · exact absurd h (by simp)
  case isFalse hle =>
    have hfit : (nm ++ [0]).length ≤ 20 := Nat.le_of_not_lt hle
    have hb : b = (nm ++ [0]) ++ List.replicate (20 - (nm ++ [0]).length) 0 := by
      cases h
      rfl
    refine ⟨hb, ?_, by simpa using hfit⟩
    rw [hb]
    simp only [List.length_append, List.length_replicate, List.length_singleton]
    simp only [List.length_append, List.length_singleton] at hfit
    omega

theorem forall₂_mem_right {α β : Type} {R : α → β → Prop} :
    ∀ {l : List α} {out : List β}, List.Forall₂ R l out →
      ∀ x ∈ out, ∃ a ∈ l, R a x := by
  intro l
  induction l with
  | nil =>
      intro out h x hx
      cases h
      simp at hx
  | cons a l ih =>
      intro out h x hx
      cases h with
      | cons hab hrest =>
          rcases List.mem_cons.mp hx with hx1 | hx2
          · exact ⟨a, List.mem_cons_self a l, hx1 ▸ hab⟩
          · obtain ⟨a', ha', hr⟩ := ih hrest x hx2
            exact ⟨a', List.mem_cons_of_mem a ha', hr⟩

theorem roster_take_length (names : List (List Nat)) :
    ((names ++ List.replicate 30 []).take 30).length = 30 := by
  rw [List.length_take, List.length_append, List.length_replicate]
  omega

/-- Success shape of `Trailer.pack`: the four components in order, with
their exact byte expansions. -/
theorem trailer_pack_ok (t : Trailer) (out : List Nat)
    (h : t.pack = .ok out) :
    out = ([t.ModeCurrent, t.Is001Style, t.DupePolicy, t.FreqCurrent,
            t.ContestKind, t.TwiceMinusOne].map u16le).flatten
        ++ (t.PointPhone.map u16le).flatten
        ++ (t.PointCW.map u16le).flatten
        ++ (((t.ClubOpName ++ List.replicate 30 []).take 30).map
            (fun nm => (nm ++ [0]) ++
              List.replicate (20 - (nm ++ [0]).length) 0)).flatten
        ++ pathBytes t.UserDefinedMultiPath
      ∧ out.length = 704 + (pathBytes t.UserDefinedMultiPath).length
      ∧ t.PointPhone.length = 23 ∧ t.PointCW.length = 23 := by
  unfold Trailer.pack at h
  cases h1 : packU16s 6 [t.ModeCurrent, t.Is001Style, t.DupePolicy,
      t.FreqCurrent, t.ContestKind, t.TwiceMinusOne] with
  | error e => rw [h1] at h; exact absurd h (by simp)
  | ok scal =>
  rw [h1] at h
  cases h2 : packU16s FREQNUM t.PointPhone with
  | error e => rw [h2] at h; exact absurd h (by simp)
  | ok ph =>
  rw [h2] at h
  cases h3 : packU16s FREQNUM t.PointCW with
  | error e => rw [h3] at h; exact absurd h (by simp)
  | ok cw =>
  rw [h3] at h
  cases h4 : mapE (fun n => enc_cp932_nul n 20)
      ((t.ClubOpName ++ List.replicate 30 []).take 30) with
  | error e => rw [h4] at h; exact absurd h (by simp)
  | ok ros =>
  rw [h4] at h
  have hout : out = scal ++ ph ++ cw ++ ros.flatten ++
      pathBytes t.UserDefinedMultiPath := by
    cases h
    rfl
  obtain ⟨hs1, hs2, hs3⟩ := packU16s_ok 6 _ scal h1
  obtain ⟨hp1, hp2, hp3⟩ := packU16s_ok FREQNUM _ ph h2
  obtain ⟨hc1, hc2, hc3⟩ := packU16s_ok FREQNUM _ cw h3
  have hros := mapE_ok h4
  have hros_eq : ros = ((t.ClubOpName ++ List.replicate 30 []).take 30).map
      (fun nm => (nm ++ [0]) ++ List.replicate (20 - (nm ++ [0]).length) 0) :=
    forall₂_out_eq_map (fun a b hab => (enc_cp932_nul_ok a b hab).1) hros
  have hros_len : ros.flatten.length = 600 := by
    rw [flatten_const_length 20 ros]
    · rw [← hros.length_eq, roster_take_length]
    · intro x hx
      obtain ⟨nm, hnm, hfx⟩ := forall₂_mem_right hros x hx
      exact (enc_cp932_nul_ok nm x hfx).2.1
  refine ⟨?_, ?_, hp1, hc1⟩
  · rw [hout, hs2, hp2, hc2, hros_eq]
  · rw [hout]
    simp only [List.length_append]
    rw [hs3, hp3, hc3, hros_len]
    unfold FREQNUM
    omega

theorem create_blank_lg8_ok (m bd kc i1 d tw : Nat)
    (ops : Option (List (List Nat))) (md : Option (List Nat)) (hdr : Bool)
    (b : List Nat) (h : create_blank_lg8 m bd kc i1 d tw ops md hdr = .ok b) :
    ∃ tr, (create_blank_trailer m bd kc i1 d tw ops md).pack = .ok tr ∧
      b = u16le 0 ++
        (if hdr then [] else List.replicate HEADER_EXTRA 0) ++ tr := by
  unfold create_blank_lg8 at h
  cases hp : (create_blank_trailer m bd kc i1 d tw ops md).pack with
  | error e => rw [hp] at h; exact absurd h (by simp [Except.map])
  | ok tr =>
      rw [hp] at h
      simp only [Except.map] at h
      cases h
      exact ⟨tr, rfl, rfl⟩

theorem inspect_off_of_create (m bd kc i1 d tw : Nat)
    (ops : Option (List (List Nat))) (md : Option (List Nat)) (hdr : Bool)
    (b : List Nat) (h : create_blank_lg8 m bd kc i1 d tw ops md hdr = .ok b) :
    inspect_off b = some 16 ∧ 706 ≤ b.length := by
  obtain ⟨tr, hT, hb⟩ := create_blank_lg8_ok m bd kc i1 d tw ops md hdr b h
  have htr : tr.length = 704 + (pathBytes
      (create_blank_trailer m bd kc i1 d tw ops md).UserDefinedMultiPath).length :=
    (trailer_pack_ok _ tr hT).2.1
  have hblen : 706 ≤ b.length := by
    rw [hb]
    simp only [List.length_append, u16le]
    cases hdr <;> simp <;> omega
  have hq : u16at b 0 = 0 := by
    rw [hb]
    cases hdr <;> simp [u16at, u16le, List.getD]
  refine ⟨?_, hblen⟩
  unfold inspect_off
  rw [if_neg (by omega)]
  rw [hq]
  unfold inspectSelect QSO_SIZE
  rw [if_neg (by omega)]

/-! ### Claim theorems -/

/-- C1 (corrected), counterexample: `write_ini` on a store whose `[CLUB]`
section already holds `OP1=ABC`, called with an empty operator list
(every roster value supplied is the empty string), overwrites the stored
value with the empty string — contradicting the claim that an empty
supplied value leaves a previously-set key unchanged. -/
theorem write_ini_empty_value_overwrites :
    lookupKV [("CLUB", [("OP1", "ABC")])] "CLUB" "OP1" = some "ABC" ∧
    lookupKV
        (write_ini [("CLUB", [("OP1", "ABC")])] [] [] none none none none
          none none none) "CLUB" "OP1" = some "" ∧
    ("" : String) ≠ "ABC" := by
  refine ⟨rfl, ?_, by decide⟩
  set_option maxRecDepth 10000 in rfl

/-- C1 (corrected), amended claim: the value `write_ini` leaves under any
`(section, key)` is fully characterised.  The optional scalar entries
(`Partial`, `CW`, startup labels, open-log path, user `.md` path) are
written only when the supplied value is truthy (present and non-empty);
a `[UrCnum]` entry is written whenever its value is not `None`, even if
empty; the 30 `[CLUB]` roster keys are always written, the empty string
overwriting any stored value beyond the supplied list; every other key
keeps its previous value. -/
theorem write_ini_upsert_characterization (st : ConfigStore)
    (m : List (String × Option String)) (club : List String)
    (ppath cq : Option String) (wpm : Option Nat)
    (olog umd sBand sMode : Option String) (s k : String) :
    lookupKV (write_ini st m club ppath cq wpm olog umd sBand sMode) s k
      = if s = "Contest" ∧ k = "UserContestMD" ∧ truthyS umd = true
          then some (umd.getD "")
        else if s = "CurrentData" ∧ k = "CloseFname" ∧ truthyS olog = true
          then some (olog.getD "")
        else if s = "Startup" ∧ k = "Mode" ∧ truthyS sMode = true
          then some (sMode.getD "")
        else if s = "Startup" ∧ k = "Band" ∧ truthyS sBand = true
          then some (sBand.getD "")
        else if s = "CurrentData" ∧ k = "ModeLabel" ∧ truthyS sMode = true
          then some (sMode.getD "")
        else if s = "CurrentData" ∧ k = "BandLabel" ∧ truthyS sBand = true
          then some (sBand.getD "")
        else if s = "CW" ∧ k = "WPM_DEF" ∧ truthyN wpm = true
          then some (toString (wpm.getD 0))
        else if s = "CW" ∧ k = "CQ" ∧ truthyS cq = true
          then some (cq.getD "")
        else if s = "Partial" ∧ k = "Filename" ∧ truthyS ppath = true
          then some (ppath.getD "")
        else ((if s = "CLUB"
                then (clubSlot k).map (fun i => club.getD i "") else none).or
              ((if s = "UrCnum" then lastUrc k m else none).or
                (lookupKV st s k))) := by
  unfold write_ini
  rw [iniBlockContest_lookup, iniBlockOpenLog_lookup, iniBlockStartup_lookup,
    iniBlockCW_lookup, iniBlockPartial_lookup, iniBlockClub_lookup,
    iniBlockUrc_lookup]

/-- C2 (code bug): the spec's round-trip property fails on the code.
`create_blank_lg8(mode=3, band=2, kind=1)` with its default legacy 2-byte
header yields a 706-byte file, so `inspect_lg8` keeps the extended offset
16 and decodes the phone-point table (all 1s) as the scalars, reporting
`Mode=1, Freq=1, ContestKind=1` instead of `3, 2, 1`.  With the extended
header (`header_legacy_2bytes=False`) the round trip holds. -/
theorem inspect_create_blank_roundtrip_bug :
    (create_blank_lg8 3 2 1 0 0 0 none none true).bind inspect_lg8
        = .ok (0, 1, 1, 1, 16) ∧
    (create_blank_lg8 3 2 1 0 0 0 none none false).bind inspect_lg8
        = .ok (0, 3, 2, 1, 16) ∧
    (1 : Nat) ≠ 3 ∧ (1 : Nat) ≠ 2 := by
  set_option maxRecDepth 40000 in
  exact ⟨rfl, rfl, by decide, by decide⟩

/-- C3 (corrected), counterexample: called without the header flag
(`header_legacy_2bytes` defaults to `True`), the byte at offset 2 of the
output for `mode_code=1` is 1 — the low byte of the packed trailer — not
the first of 14 zero padding bytes, so the default is not the extended
variant. -/
theorem create_blank_default_not_extended :
    (create_blank_lg8 1 2 1 0 0 0 none none true).map (fun l => l.getD 2 0)
        = .ok 1 ∧
    (create_blank_lg8 1 2 1 0 0 0 none none true).map List.length
        = .ok 706 ∧
    (1 : Nat) ≠ 0 ∧ (706 : Nat) ≠ 720 := by
  set_option maxRecDepth 40000 in
  exact ⟨rfl, rfl, by decide, by decide⟩

/-- C3 (corrected), amended claim: the header-variant parameter defaults
to the LEGACY variant — with `header_legacy_2bytes=True` (the Python
default) only the 2-byte record count precedes the encoded trailer, and
with the flag `False` the 2-byte count is followed by 14 zero bytes
(16-byte header) and then the trailer. -/
theorem create_blank_header_variants (m bd kc i1 d tw : Nat)
    (ops : Option (List (List Nat))) (md : Option (List Nat))
    (outL outE tr : List Nat)
    (hT : (create_blank_trailer m bd kc i1 d tw ops md).pack = .ok tr)
    (hL : create_blank_lg8 m bd kc i1 d tw ops md true = .ok outL)
    (hE : create_blank_lg8 m bd kc i1 d tw ops md false = .ok outE) :
    outL = u16le 0 ++ tr ∧
    outE = u16le 0 ++ List.replicate HEADER_EXTRA 0 ++ tr := by
  obtain ⟨trL, hTL, hbL⟩ := create_blank_lg8_ok m bd kc i1 d tw ops md true outL hL
  obtain ⟨trE, hTE, hbE⟩ := create_blank_lg8_ok m bd kc i1 d tw ops md false outE hE
  rw [hT] at hTL hTE
  injection hTL with hTL
  injection hTE with hTE
  subst hTL
  subst hTE
  constructor
  · rw [hbL]; simp
  · rw [hbE]; simp

theorem create_blank_header_variants_witness :
    (create_blank_lg8 3 2 1 0 0 0 none none true).toOption.getD []
        = u16le 0 ++
          ((create_blank_trailer 3 2 1 0 0 0 none none).pack.toOption.getD []) ∧
    (create_blank_lg8 3 2 1 0 0 0 none none false).toOption.getD []
        = u16le 0 ++ List.replicate HEADER_EXTRA 0 ++
          ((create_blank_trailer 3 2 1 0 0 0 none none).pack.toOption.getD []) :=
  create_blank_header_variants 3 2 1 0 0 0 none none _ _ _ rfl rfl rfl

/-- C4 (corrected), counterexample: the blank written with the legacy
2-byte header is 706 bytes long, so `len < offExt + 12 = 28` fails and
`inspect_lg8` selects the extended offset 16, not the legacy offset 2 as
the claim asserts. -/
theorem inspect_legacy_blank_selects_extended :
    (create_blank_lg8 3 2 1 0 0 0 none none true).map inspect_off
        = .ok (some 16) ∧
    (create_blank_lg8 3 2 1 0 0 0 none none true).map List.length
        = .ok 706 ∧
    ¬((706 : Nat) < 16 + 0 * QSO_SIZE + 12) ∧ (16 : Nat) ≠ 2 := by
  set_option maxRecDepth 40000 in
  exact ⟨rfl, rfl, by decide, by decide⟩

/-- C4 (corrected), amended claim: a blank written with the extended
header makes `inspect_lg8` select `offExt = 16` — and so does a blank
written with the legacy header, because every `create_blank_lg8` output
is at least 706 bytes long, so `len(bytes) < offExt + 12` never holds and
the legacy fallback never fires. -/
theorem inspect_off_create_blank (m bd kc i1 d tw : Nat)
    (ops : Option (List (List Nat))) (md : Option (List Nat))
    (bL bE : List Nat)
    (hL : create_blank_lg8 m bd kc i1 d tw ops md true = .ok bL)
    (hE : create_blank_lg8 m bd kc i1 d tw ops md false = .ok bE) :
    inspect_off bE = some 16 ∧ inspect_off bL = some 16 ∧
    ¬(bL.length < 16 + 0 * QSO_SIZE + 12) := by
  obtain ⟨hoE, _⟩ := inspect_off_of_create m bd kc i1 d tw ops md false bE hE
  obtain ⟨hoL, hlenL⟩ := inspect_off_of_create m bd kc i1 d tw ops md true bL hL
  exact ⟨hoE, hoL, by omega⟩

theorem inspect_off_create_blank_witness :
    inspect_off ((create_blank_lg8 3 2 1 0 0 0 none none false).toOption.getD [])
        = some 16 ∧
    inspect_off ((create_blank_lg8 3 2 1 0 0 0 none none true).toOption.getD [])
        = some 16 ∧
    ¬(((create_blank_lg8 3 2 1 0 0 0 none none true).toOption.getD []).length
        < 16 + 0 * QSO_SIZE + 12) :=
  inspect_off_create_blank 3 2 1 0 0 0 none none _ _ rfl rfl

/-- C5 (corrected), counterexample: a trailer whose optional path is
present but empty (`UserDefinedMultiPath = some ""`) packs successfully
to the base 704 bytes, not to `704 + len(path) + 1 = 705` as the claim's
"present ⇒ +len(path)+1" reading requires: `Trailer.pack` guards the
path with Python truthiness, so an empty path emits nothing. -/
theorem trailer_pack_present_empty_path :
    (Trailer.pack { Trailer.default with UserDefinedMultiPath := some [] }).map
        List.length = .ok 704 ∧
    ({ Trailer.default with UserDefinedMultiPath := some [] } : Trailer
      ).UserDefinedMultiPath ≠ none ∧
    (704 : Nat) ≠ 12 + 2 * 23 * 2 + 30 * 20 + (List.length ([] : List Nat) + 1) := by
  set_option maxRecDepth 40000 in
  refine ⟨rfl, by simp, by decide⟩

/-- C5 (corrected), amended claim: on success the packed trailer is the
six scalars in fixed order as little-endian u16, the phone table, the CW
table, and 30 roster slots of 20 bytes each, followed by the optional
path; its length is `12 + 2*23*2 + 30*20` plus `len(path)+1` when the
path is present AND non-empty (a present empty path contributes
nothing). -/
theorem trailer_pack_layout (t : Trailer) (out : List Nat)
    (h : t.pack = .ok out) :
    out = ([t.ModeCurrent, t.Is001Style, t.DupePolicy, t.FreqCurrent,
            t.ContestKind, t.TwiceMinusOne].map u16le).flatten
        ++ (t.PointPhone.map u16le).flatten
        ++ (t.PointCW.map u16le).flatten
        ++ (((t.ClubOpName ++ List.replicate 30 []).take 30).map
            (fun nm => (nm ++ [0]) ++
              List.replicate (20 - (nm ++ [0]).length) 0)).flatten
        ++ pathBytes t.UserDefinedMultiPath ∧
    out.length = 12 + 2 * 23 * 2 + 30 * 20 +
      (match t.UserDefinedMultiPath with
       | some p => if p = [] then 0 else p.length + 1
       | none => 0) := by
  obtain ⟨h1, h2, _, _⟩ := trailer_pack_ok t out h
  refine ⟨h1, ?_⟩
  have hpl : (pathBytes t.UserDefinedMultiPath).length
      = (match t.UserDefinedMultiPath with
         | some p => if p = [] then 0 else p.length + 1
         | none => 0) := by
    unfold pathBytes
    cases t.UserDefinedMultiPath with
    | none => rfl
    | some p =>
        by_cases hp : p = [] <;> simp [hp]
  rw [h2, hpl]

theorem trailer_pack_layout_witness :
    ((Trailer.pack Trailer.default).toOption.getD []).length
      = 12 + 2 * 23 * 2 + 30 * 20 +
        (match Trailer.default.UserDefinedMultiPath with
         | some p => if p = [] then 0 else p.length + 1
         | none => 0) :=
  (trailer_pack_layout Trailer.default _ rfl).2

/-- C6 (confirmed): `enc_cp932_nul` with width 20 succeeds on a name
whose encoded-plus-NUL length is exactly 20 bytes, yielding exactly those
20 bytes; it fails on any name whose terminated length is 21 bytes or
more; and every successful result is the encoded text, one zero byte, and
zero padding to exactly 20 bytes. -/
theorem enc_cp932_nul_fixed20 (nm : List Nat) :
    (nm.length + 1 = 20 →
      enc_cp932_nul nm 20 = .ok (nm ++ [0]) ∧ (nm ++ [0]).length = 20) ∧
    (21 ≤ nm.length + 1 →
      enc_cp932_nul nm 20 = .error "string too long") ∧
    (∀ out, enc_cp932_nul nm 20 = .ok out →
      out = (nm ++ [0]) ++ List.replicate (20 - (nm.length + 1)) 0 ∧
      out.length = 20) := by
  refine ⟨?_, ?_, ?_⟩
  · intro h
    have hlen : (nm ++ [0]).length = 20 := by
      simp only [List.length_append, List.length_singleton]
      exact h
    unfold enc_cp932_nul
    rw [if_neg (by omega)]
    rw [hlen]
    simp [hlen]
  · intro h
    unfold enc_cp932_nul
    rw [if_pos]
    simp only [List.length_append, List.length_singleton]
    omega
  · intro out h
    obtain ⟨h1, h2, _⟩ := enc_cp932_nul_ok nm out h
    refine ⟨?_, h2⟩
    rw [h1]
    simp [List.length_append]

theorem enc_cp932_nul_fixed20_witness :
    enc_cp932_nul (List.replicate 19 7) 20 = .ok (List.replicate 19 7 ++ [0]) ∧
    enc_cp932_nul (List.replicate 20 7) 20 = .error "string too long" :=
  ⟨((enc_cp932_nul_fixed20 (List.replicate 19 7)).1 (by decide)).1,
   (enc_cp932_nul_fixed20 (List.replicate 20 7)).2.1 (by decide)⟩

/-- C7 (confirmed): on any buffer long enough to read the record count,
`inspect_lg8` selects the legacy offset `2 + qso*170` exactly when the
buffer holds 12 bytes at that offset and is too short to hold 12 bytes at
the extended offset `16 + qso*170`; in every other case it selects the
extended offset — biased toward extended when both fit. -/
theorem inspect_offset_heuristic (b : List Nat) (h2 : 2 ≤ b.length) :
    inspect_off b = some (inspectSelect b.length (u16at b 0)) ∧
    (inspect_off b = some (2 + u16at b 0 * QSO_SIZE) ↔
      (2 + u16at b 0 * QSO_SIZE + 12 ≤ b.length ∧
       b.length < 16 + u16at b 0 * QSO_SIZE + 12)) ∧
    (¬(2 + u16at b 0 * QSO_SIZE + 12 ≤ b.length ∧
       b.length < 16 + u16at b 0 * QSO_SIZE + 12) →
      inspect_off b = some (16 + u16at b 0 * QSO_SIZE)) := by
  have hnl : ¬(b.length < 2) := by omega
  unfold inspect_off
  rw [if_neg hnl]
  refine ⟨rfl, ?_, ?_⟩
  · unfold inspectSelect
    by_cases hc : 2 + u16at b 0 * QSO_SIZE + 12 ≤ b.length ∧
        b.length < 16 + u16at b 0 * QSO_SIZE + 12
    · rw [if_pos hc]
      exact ⟨fun _ => hc, fun _ => rfl⟩
    · rw [if_neg hc]
      constructor
      · intro hx
        injection hx with hx
        omega
      · intro hx
        exact absurd hx hc
  · intro hc
    unfold inspectSelect
    rw [if_neg hc]

theorem inspect_offset_heuristic_witness :
    inspect_off (List.replicate 14 0) = some 2 :=
  ((inspect_offset_heuristic (List.replicate 14 0) (by decide)).2.1).mpr
    (by decide)

/-- C8 (confirmed): for every label in the mode and band enumerations,
`labelOf(codeOf(label))` returns the label, and for every code outside an
enumeration the label lookup does not fail but synthesizes `"#<code>"`. -/
theorem code_tables_roundtrip :
    (∀ l ∈ MODE_TABLE.map Prod.snd, (mode_code l).map mode_label = some l) ∧
    (∀ l ∈ BAND_TABLE.map Prod.snd, (band_code l).map band_label = some l) ∧
    (∀ c : Nat, (∀ p ∈ MODE_TABLE, p.1 ≠ c) →
      mode_label c = "#" ++ toString c) ∧
    (∀ c : Nat, (∀ p ∈ BAND_TABLE, p.1 ≠ c) →
      band_label c = "#" ++ toString c) := by
  refine ⟨by decide, by decide, ?_, ?_⟩
  · intro c hc
    have hf : MODE_TABLE.find? (fun p => p.1 == c) = none := by
      rw [List.find?_eq_none]
      intro p hp
      simp only [beq_iff_eq]
      exact hc p hp
    unfold mode_label
    rw [hf]
  · intro c hc
    have hf : BAND_TABLE.find? (fun p => p.1 == c) = none := by
      rw [List.find?_eq_none]
      intro p hp
      simp only [beq_iff_eq]
      exact hc p hp
    unfold band_label
    rw [hf]

theorem code_tables_roundtrip_witness :
    (mode_code "CW").map mode_label = some "CW" ∧
    mode_label 25 = "#" ++ toString 25 ∧
    band_label 23 = "#" ++ toString 23 :=
  ⟨code_tables_roundtrip.1 "CW" (by decide),
   code_tables_roundtrip.2.2.1 25 (by decide),
   code_tables_roundtrip.2.2.2 23 (by decide)⟩

/-- C9 (confirmed): the roster of the trailer built by `create_blank_lg8`
from any supplied operator list is the supplied names in order, padded
with empty strings and truncated to exactly 30 slots; a list longer than
30 is silently cut to its first 30 names, and each of the first
`min(len, 30)` slots equals the corresponding supplied name. -/
theorem create_blank_roster (m bd kc i1 d tw : Nat) (md : Option (List Nat))
    (ops : List (List Nat)) :
    (create_blank_trailer m bd kc i1 d tw (some ops) md).ClubOpName
        = (ops ++ List.replicate 30 []).take 30 ∧
    (create_blank_trailer m bd kc i1 d tw (some ops) md).ClubOpName.length
        = 30 ∧
    (∀ j, j < min ops.length 30 →
      (create_blank_trailer m bd kc i1 d tw (some ops) md).ClubOpName.getD j []
        = ops.getD j []) := by
  have hre : (create_blank_trailer m bd kc i1 d tw (some ops) md).ClubOpName
      = (ops ++ List.replicate 30 []).take 30 := by
    unfold create_blank_trailer
    by_cases he : ops = []
    · subst he
      simp [Trailer.default, List.take_replicate]
    · simp [he]
  refine ⟨hre, by rw [hre]; exact roster_take_length ops, ?_⟩
  intro j hj
  rw [hre]
  have hj30 : j < 30 := lt_of_lt_of_le hj (min_le_right _ _)
  have hjo : j < ops.length := lt_of_lt_of_le hj (min_le_left _ _)
  have hgl : ((ops ++ List.replicate 30 ([] : List Nat)).take 30)[j]?
      = ops[j]? := by
    rw [List.getElem?_take, if_pos hj30, List.getElem?_append, if_pos hjo]
  rw [List.getD_eq_getElem?_getD, List.getD_eq_getElem?_getD, hgl]

theorem create_blank_roster_witness :
    (create_blank_trailer 0 0 1 0 0 0 (some [[1], [2]]) none).ClubOpName.getD 1 []
      = [2] :=
  (create_blank_roster 0 0 1 0 0 0 none [[1], [2]]).2.2 1 (by decide)

theorem clubSlot_opKey : ∀ j, j < 30 → clubSlot (opKey j) = some j := by
  decide

/-- C10 (confirmed): after `apply_ops_to_ini` (and after `write_ini`),
the `CLUB` section exists and every key `OP1..OP30` is present, key
`OPi` holding the i-th supplied name when the list reaches it and the
empty string otherwise — slots beyond the supplied list are overwritten
with empty strings no matter what the store previously held. -/
theorem club_roster_always_written (st : ConfigStore)
    (m : List (String × Option String)) (club : List String)
    (ppath cq : Option String) (wpm : Option Nat)
    (olog umd sBand sMode : Option String) (i : Nat)
    (h1 : 1 ≤ i) (h2 : i ≤ 30) :
    lookupKV (apply_ops_to_ini st club) "CLUB" ("OP" ++ toString i)
        = some (club.getD (i - 1) "") ∧
    hasSection (apply_ops_to_ini st club) "CLUB" = true ∧
    lookupKV (write_ini st m club ppath cq wpm olog umd sBand sMode)
        "CLUB" ("OP" ++ toString i) = some (club.getD (i - 1) "") := by
  have hidx : i - 1 < 30 := by omega
  have hcs := clubSlot_opKey (i - 1) hidx
  have hop : opKey (i - 1) = "OP" ++ toString i := by
    unfold opKey
    rw [Nat.sub_add_cancel h1]
  have hmain : lookupKV (apply_ops_to_ini st club) "CLUB" ("OP" ++ toString i)
      = some (club.getD (i - 1) "") := by
    rw [← hop, apply_ops_to_ini_lookup, hcs]
    simp
  refine ⟨hmain, lookupKV_some_hasSection _ _ _ _ hmain, ?_⟩
  rw [← hop]
  unfold write_ini
  rw [iniBlockContest_lookup, iniBlockOpenLog_lookup, iniBlockStartup_lookup,
    iniBlockCW_lookup, iniBlockPartial_lookup, iniBlockClub_lookup,
    iniBlockUrc_lookup, hcs]
  simp

theorem club_roster_always_written_witness :
    lookupKV (apply_ops_to_ini [] ["A", "B"]) "CLUB" "OP2" = some "B" :=
  (club_roster_always_written [] [] ["A", "B"] none none none none none
    none none 2 (by decide) (by decide)).1

end Ctestwin
